import Mathlib

/-!
Shallow embedding of the core computational logic of the pg-hotspots-cli
repository: the capacity model in `src/utils.py` (`bytes_to_unit`,
`get_disk_iops_tp`) and the series aggregation logic in
`src/figure_logic/disk_related.py` (`disk_usage_pie_overview`) and
`src/figure_logic/transaction_related.py` (`transaction_ops`).

Python floats are modelled as exact rationals (`ℚ`), Python ints as `ℤ`,
Python dicts as association lists, and fallible computations (exceptions
such as `ValueError`, `IndexError`, `KeyError`, `ZeroDivisionError`) as
`Option`-valued functions returning `none` where the Python code raises.
-/

namespace PgHotspots

/-- Python `str.lower()` for the ASCII identifiers used here, written as
a structural map over the character list (Lean's own `String.toLower` is
extensionally the same but is defined by well-founded recursion). -/
def pyLower (s : String) : String := ⟨s.data.map Char.toLower⟩

/-- Python `str.upper()` for the ASCII identifiers used here. -/
def pyUpper (s : String) : String := ⟨s.data.map Char.toUpper⟩

/-- `utils.bytes_to_unit`: convert raw bytes to the requested unit.
Python's `None` input is `none`; the unit string is lowercased; unknown
units fall through to returning the value unchanged. The Python default
argument is `unit="GiB"`; callers here always pass the unit explicitly. -/
def bytes_to_unit (value_bytes : Option ℚ) (unit : String) : ℚ :=
  match value_bytes with
  | none => 0
  | some v =>
    let u := pyLower unit
    if u = "b" ∨ u = "bytes" then v
    else if u = "mib" then v / 1024 ^ 2
    else if u = "gib" then v / 1024 ^ 3
    else v

/-- The vCPU-bucket selection chain of `utils.get_disk_iops_tp`
(source lines 236-247): descending threshold matching. -/
def bucketOf (cpu_count : ℤ) : ℤ :=
  if cpu_count ≥ 64 then 64
  else if cpu_count ≥ 32 then 32
  else if cpu_count ≥ 16 then 16
  else if cpu_count ≥ 8 then 8
  else if cpu_count ≥ 2 then 2
  else 1

/-- Result dictionary of `get_disk_iops_tp`: the two entries are `Option`
pairs because the general path builds them with `dict.get`, which can
yield `None`. -/
structure PerfResult where
  max_iops_rw : Option (ℤ × ℤ)
  max_throughput_rw : Option (ℤ × ℤ)
deriving DecidableEq

/-- Python `dict.get(k)` over an association list with string keys. -/
def dictGet {α : Type} (d : List (String × α)) (k : String) : Option α :=
  (d.find? (fun p => p.1 = k)).map Prod.snd

/-- Python `dict[k]` / `dict.get(k)` over an association list with int keys. -/
def dictGetZ {α : Type} (d : List (ℤ × α)) (k : ℤ) : Option α :=
  (d.find? (fun p => p.1 = k)).map Prod.snd

/-- The `perf_map` table of `utils.get_disk_iops_tp` (source lines
208-233), kept as nested dictionaries: bucket → availability →
{"iops" ↦ pair, "tp" ↦ pair}. Note the innermost key is `"tp"`. -/
def perf_map : List (ℤ × List (String × List (String × (ℤ × ℤ)))) :=
  [ (1, [("ZONAL", [("iops", (15000, 15000)), ("tp", (200, 200))]),
         ("REGIONAL", [("iops", (15000, 15000)), ("tp", (200, 100))])]),
    (2, [("ZONAL", [("iops", (15000, 15000)), ("tp", (240, 240))]),
         ("REGIONAL", [("iops", (15000, 15000)), ("tp", (240, 120))])]),
    (8, [("ZONAL", [("iops", (15000, 15000)), ("tp", (800, 800))]),
         ("REGIONAL", [("iops", (15000, 15000)), ("tp", (800, 400))])]),
    (16, [("ZONAL", [("iops", (25000, 25000)), ("tp", (1200, 1200))]),
          ("REGIONAL", [("iops", (25000, 25000)), ("tp", (1200, 600))])]),
    (32, [("ZONAL", [("iops", (60000, 60000)), ("tp", (1200, 1200))]),
          ("REGIONAL", [("iops", (60000, 60000)), ("tp", (1200, 600))])]),
    (64, [("ZONAL", [("iops", (100000, 100000)), ("tp", (1200, 1200))]),
          ("REGIONAL", [("iops", (100000, 80000)), ("tp", (1200, 1000))])]) ]

/-- Python `str.split(sep)` for a one-character separator: splits into
pieces, keeping empty pieces, as a structural recursion over the
character list. -/
def pySplitAux (sep : Char) : List Char → List Char → List String
  | [], acc => [⟨acc.reverse⟩]
  | c :: cs, acc =>
    if c = sep then (⟨acc.reverse⟩ : String) :: pySplitAux sep cs []
    else pySplitAux sep cs (c :: acc)

/-- Python `tier_str.split("-")`. -/
def pySplit (sep : Char) (s : String) : List String := pySplitAux sep s.data []

/-- Python `int(s)` on a decimal string: optional leading minus sign,
then at least one ASCII digit (the whitespace/plus-sign/underscore forms
Python also accepts never arise from a hyphen split). `none` models
`ValueError`. -/
def digitsToNat? (l : List Char) : Option ℕ :=
  if l ≠ [] ∧ l.all (fun c => c.isDigit) then
    some (l.foldl (fun n c => n * 10 + (c.toNat - 48)) 0)
  else none

/-- Python `int(s)` over the embedded string. -/
def pyInt? (s : String) : Option ℤ :=
  match s.data with
  | '-' :: rest => (digitsToNat? rest).map (fun n => -(n : ℤ))
  | l => (digitsToNat? l).map (fun n => (n : ℤ))

/-- The general bucket-table path of `utils.get_disk_iops_tp` (source
lines 197-256): split the tier on `-`, parse `parts[-2]` as the vCPU
count (`none` models `IndexError`/`ValueError`), select the bucket, then
`res = perf_map[bucket].get(availability.upper(), {})` and build the
result via `res.get("iops")` and `res.get("throughput")` — the latter key
does not occur in the table, which stores the pair under `"tp"`. -/
def generalPath (tier_str availability : String) : Option PerfResult :=
  let parts := pySplit '-' tier_str
  if parts.length < 2 then none
  else
    match pyInt? (parts.getD (parts.length - 2) "") with
    | none => none
    | some cpu_count =>
      match dictGetZ perf_map (bucketOf cpu_count) with
      | none => none
      | some modes =>
        let res := (dictGet modes (pyUpper availability)).getD []
        some ⟨dictGet res "iops", dictGet res "throughput"⟩

/-- `utils.get_disk_iops_tp` (source lines 174-256). The guard models
Python's `tier_str == "db-f1-micro" or "db-g1-small"`: the right operand
is a non-empty string literal, truthy in Python, rendered here as
`"db-g1-small" ≠ ""`. The unused local `mapping_key` of the source is
omitted. -/
def get_disk_iops_tp (tier_str availability : String) : Option PerfResult :=
  if tier_str = "db-f1-micro" ∨ ("db-g1-small" : String) ≠ "" then
    if availability = "REGIONAL" then
      some ⟨some (15000, 15000), some (200, 100)⟩
    else
      some ⟨some (15000, 15000), some (200, 200)⟩
  else
    generalPath tier_str availability

/-! ### `transaction_related.transaction_ops`: the averaging core -/

/-- One element of `metrics.psql_transaction_count`: the paired
timestamp and value sequences of `item.psql_transaction_count`. -/
structure TxItem where
  timestamps : List ℕ
  data : List ℤ
deriving DecidableEq

/-- Python's `round` (banker's rounding, round-half-to-even) on an exact
rational. `Rat.floor` is the integer floor (`Rat.floor_def'`). -/
def pyRound (q : ℚ) : ℤ :=
  let f := q.floor
  let r := q - (f : ℚ)
  if r < 1 / 2 then f
  else if 1 / 2 < r then f + 1
  else if f % 2 = 0 then f else f + 1

/-- The loop body of `transaction_ops` (source lines 20-26) acting on the
accumulator `(x_avg, avg_sum, avg_count)`: series whose data sums below 5
are skipped; `x_avg` is taken from the first retained series with
non-empty timestamps; `avg_count` from the first retained series. -/
def txStep (acc : List ℕ × ℤ × ℕ) (item : TxItem) : List ℕ × ℤ × ℕ :=
  if item.data.sum < 5 then acc
  else
    ((if acc.1 = [] then item.timestamps else acc.1),
     acc.2.1 + item.data.sum,
     (if acc.2.2 = 0 then item.data.length else acc.2.2))

/-- The average-series computation of `transaction_ops` (source lines
15-57): fold the loop body over the items, then
`avg_values = [round(avg_sum / avg_count)] * len(x_avg)`. Python raises
`ZeroDivisionError` when `avg_count == 0`, modelled as `none`. -/
def transaction_ops_avg (items : List TxItem) : Option (List ℤ) :=
  let st := items.foldl txStep ([], 0, 0)
  if st.2.2 = 0 then none
  else some (List.replicate st.1.length (pyRound ((st.2.1 : ℚ) / (st.2.2 : ℚ))))

/-! ### `disk_related.disk_usage_pie_overview`: the breakdown core -/

/-- Ordering used by `sorted(by_type_b.items(), key=lambda x: x[1])`. -/
def valLE (a b : String × ℚ) : Prop := a.2 ≤ b.2

instance : DecidableRel valLE := fun a b => inferInstanceAs (Decidable (a.2 ≤ b.2))

instance : IsTotal (String × ℚ) valLE := ⟨fun a b => le_total a.2 b.2⟩

instance : IsTrans (String × ℚ) valLE := ⟨fun _ _ _ h h' => le_trans h h'⟩

/-- The filtering loop of `disk_usage_pie_overview` (source lines
314-318): keep only entries whose current value is not `None` and is
non-negative. -/
def keptUsages (by_type : List (String × Option ℚ)) : List (String × ℚ) :=
  by_type.filterMap (fun p =>
    match p.2 with
    | some v => if 0 ≤ v then some (p.1, v) else none
    | none => none)

/-- The label/value construction of `disk_usage_pie_overview` (source
lines 310-328): `cur_avail_bytes = max(cur_quota - cur_used, 0.0)` from
the current total-used metric, kept entries sorted ascending by value
(Python's stable sort) and converted with `bytes_to_unit` (default unit
GiB), then the `"Available"` entry appended. -/
def disk_usage_breakdown (cur_quota cur_used : ℚ)
    (by_type : List (String × Option ℚ)) : List (String × ℚ) :=
  let cur_avail_bytes := max (cur_quota - cur_used) 0
  let sortedEntries := List.insertionSort valLE (keptUsages by_type)
  sortedEntries.map (fun p => (p.1, bytes_to_unit (some p.2) "GiB"))
    ++ [("Available", bytes_to_unit (some cur_avail_bytes) "GiB")]

/-- The 90%-quota warning series of `disk_usage_pie_overview` (source
line 410): `warn_y = [bytes_to_unit(v * 0.9) for v in quota.data()]`. -/
def warn_y (quota_data : List ℚ) : List ℚ :=
  quota_data.map (fun v => bytes_to_unit (some (v * (9 / 10))) "GiB")

/-! ### Helper lemmas -/

lemma bytes_to_unit_gib (v : ℚ) : bytes_to_unit (some v) "GiB" = v / 1024 ^ 3 := rfl

lemma rat_floor_eq_int_floor (q : ℚ) : q.floor = ⌊q⌋ := by
  rw [Rat.floor_def', Rat.floor_def]

lemma dictGet_getD_throughput_none
    (modes : List (String × List (String × (ℤ × ℤ))))
    (hm : ∀ p ∈ modes, dictGet p.2 "throughput" = none) (k : String) :
    dictGet ((dictGet modes k).getD []) "throughput" = none := by
  cases hf : dictGet modes k with
  | none => rfl
  | some inner =>
    obtain ⟨p, hp, rfl⟩ : ∃ p ∈ modes, p.2 = inner := by
      unfold dictGet at hf
      cases hf2 : modes.find? (fun p => p.1 = k) with
      | none => rw [hf2] at hf; exact Option.noConfusion hf
      | some p =>
        rw [hf2] at hf
        exact ⟨p, List.mem_of_find?_eq_some hf2, by simpa using hf⟩
    exact hm p hp

/-! ### Claims -/

/-- C1: for every tier string and availability string, `get_disk_iops_tp`
takes the micro/small branch (its condition is always true) and returns
the fixed envelope: IOPS ceiling (15000, 15000), throughput (200, 100)
when availability is "REGIONAL" and (200, 200) otherwise; the bucket
table is never consulted. -/
theorem c1_micro_small_branch_always (tier availability : String) :
    get_disk_iops_tp tier availability =
      some (if availability = "REGIONAL"
        then ⟨some (15000, 15000), some (200, 100)⟩
        else ⟨some (15000, 15000), some (200, 200)⟩) := by
  unfold get_disk_iops_tp
  rw [if_pos (Or.inr (by decide))]
  split <;> rfl

/-- C2, code-level evaluation: the spec's two `lookup_envelope` examples
fail on the code. Both inputs are routed through the always-true
micro/small branch, so "db-custom-8-32768"/"REGIONAL" yields throughput
(200, 100) instead of (800, 400), and "db-custom-16-65536"/"ZONAL"
yields IOPS (15000, 15000), throughput (200, 200) instead of
(25000, 25000) and (1200, 1200). Even the (dead) bucket-table path would
return the table IOPS but a `None` throughput, because the table stores
the pair under key "tp" while the result reads key "throughput". -/
theorem c2_spec_examples_fail_on_code :
    get_disk_iops_tp "db-custom-8-32768" "REGIONAL" =
        some ⟨some (15000, 15000), some (200, 100)⟩ ∧
      get_disk_iops_tp "db-custom-16-65536" "ZONAL" =
        some ⟨some (15000, 15000), some (200, 200)⟩ ∧
      generalPath "db-custom-8-32768" "REGIONAL" =
        some ⟨some (15000, 15000), none⟩ ∧
      generalPath "db-custom-16-65536" "ZONAL" =
        some ⟨some (25000, 25000), none⟩ :=
  ⟨rfl, rfl, by decide, by decide⟩

/-- C3: whenever the general bucket-table path of `get_disk_iops_tp`
produces a result, its `max_throughput_rw` field is `none`, for every
tier string and every availability mode, because the performance table
stores the throughput pair under key "tp" while the returned dict reads
key "throughput". -/
theorem c3_general_path_throughput_none (tier availability : String)
    (r : PerfResult) (h : generalPath tier availability = some r) :
    r.max_throughput_rw = none := by
  have hall : ∀ q ∈ perf_map, ∀ p ∈ q.2, dictGet p.2 "throughput" = none := by
    decide
  simp only [generalPath] at h
  split at h
  · exact Option.noConfusion h
  · split at h
    · exact Option.noConfusion h
    · split at h
      · exact Option.noConfusion h
      · rename_i modes hdz
        injection h with h2
        rw [← h2]
        unfold dictGetZ at hdz
        rw [Option.map_eq_some'] at hdz
        obtain ⟨q, hf, hq2⟩ := hdz
        have hq : q ∈ perf_map := List.mem_of_find?_eq_some hf
        subst hq2
        exact dictGet_getD_throughput_none q.2 (hall q hq)
          (pyUpper availability)

/-- Witness for C3 at tier "db-custom-8-32768", availability "REGIONAL". -/
theorem c3_general_path_throughput_none_witness :
    PerfResult.max_throughput_rw ⟨some (15000, 15000), none⟩ = none :=
  c3_general_path_throughput_none "db-custom-8-32768" "REGIONAL"
    ⟨some (15000, 15000), none⟩ (by decide)

/-- C4 counterexample: calling the lookup with the unrecognized
availability mode "LOCAL" does not fail; for the tier "db-f1-micro" it
returns the fixed envelope IOPS (15000, 15000), throughput (200, 200). -/
theorem c4_local_returns_envelope :
    get_disk_iops_tp "db-f1-micro" "LOCAL" =
        some ⟨some (15000, 15000), some (200, 200)⟩ ∧
      get_disk_iops_tp "db-f1-micro" "LOCAL" ≠ none :=
  ⟨rfl, by decide⟩

/-- C4 amended: for every tier string and every availability mode other
than "REGIONAL" (including unrecognized modes such as "LOCAL"), the
lookup returns the fixed envelope IOPS (15000, 15000), throughput
(200, 200) rather than failing. -/
theorem c4_amended_non_regional_envelope (tier availability : String)
    (h : availability ≠ "REGIONAL") :
    get_disk_iops_tp tier availability =
      some ⟨some (15000, 15000), some (200, 200)⟩ := by
  unfold get_disk_iops_tp
  rw [if_pos (Or.inr (by decide)), if_neg h]

/-- Witness for C4's amended theorem at tier "db-custom-8-32768" and
availability "LOCAL". -/
theorem c4_amended_non_regional_envelope_witness :
    get_disk_iops_tp "db-custom-8-32768" "LOCAL" =
      some ⟨some (15000, 15000), some (200, 200)⟩ :=
  c4_amended_non_regional_envelope "db-custom-8-32768" "LOCAL" (by decide)

/-- C5, code-level evaluation: over a collection whose only series sums
to 3 (below the noise threshold 5, so zero series qualify), the
running-average computation of `transaction_ops` fails (the division
`avg_sum / avg_count` is executed with `avg_count = 0`, a
`ZeroDivisionError`, modelled as `none`) instead of producing a series. -/
theorem c5_zero_qualifying_series_fails :
    transaction_ops_avg [⟨[0, 1, 2], [1, 1, 1]⟩] = none ∧
      (⟨[0, 1, 2], [1, 1, 1]⟩ : TxItem).data.sum < 5 :=
  ⟨rfl, by decide⟩

/-- C8: unit conversion maps `none` to 0 for every unit; converting to
GiB and multiplying by 1024³ recovers the value exactly; and any unit
string outside bytes/b, MiB, GiB (case-insensitive) passes the value
through unchanged. -/
theorem c8_bytes_to_unit_properties :
    (∀ u : String, bytes_to_unit none u = 0) ∧
      (∀ v : ℚ, bytes_to_unit (some v) "GiB" * 1024 ^ 3 = v) ∧
      (∀ (v : ℚ) (u : String),
        pyLower u ∉ (["b", "bytes", "mib", "gib"] : List String) →
        bytes_to_unit (some v) u = v) := by
  refine ⟨fun u => rfl, fun v => ?_, fun v u h => ?_⟩
  · rw [bytes_to_unit_gib]
    exact div_mul_cancel₀ v (by norm_num)
  · obtain ⟨h1, h2, h3, h4⟩ :
        pyLower u ≠ "b" ∧ pyLower u ≠ "bytes" ∧ pyLower u ≠ "mib" ∧
          pyLower u ≠ "gib" := by
      simpa [not_or] using h
    simp [bytes_to_unit, h1, h2, h3, h4]

/-- Witness for C8 at value 7 and the unknown unit "TB". -/
theorem c8_bytes_to_unit_properties_witness :
    bytes_to_unit (some 7) "TB" = 7 :=
  c8_bytes_to_unit_properties.2.2 7 "TB" (by decide)

/-- C10: the 90%-quota warning series has the same length as the input
series, each value is the input value scaled by 9/10 first and
unit-converted second, and the pre-conversion scaling of [100, 200] is
[90, 180]. -/
theorem c10_threshold_scaled_series :
    (∀ quota_data : List ℚ,
        warn_y quota_data =
          (quota_data.map (fun v => v * (9 / 10))).map
            (fun v => bytes_to_unit (some v) "GiB") ∧
        (warn_y quota_data).length = quota_data.length) ∧
      ([(100 : ℚ), 200].map (fun v => v * (9 / 10))) = [90, 180] := by
  refine ⟨fun qd => ⟨?_, ?_⟩, by norm_num⟩
  · rw [List.map_map]
    rfl
  · simp [warn_y]

lemma retained_data_length_pos {i : TxItem} (h : ¬ i.data.sum < 5) :
    i.data.length ≠ 0 := by
  intro hl
  rw [List.length_eq_zero] at hl
  rw [hl] at h
  simp at h

lemma txStep_skip {acc : List ℕ × ℤ × ℕ} {i : TxItem}
    (h : i.data.sum < 5) : txStep acc i = acc := by
  simp [txStep, h]

lemma txStep_keep {acc : List ℕ × ℤ × ℕ} {i : TxItem}
    (h : ¬ i.data.sum < 5) :
    txStep acc i =
      ((if acc.1 = [] then i.timestamps else acc.1),
       acc.2.1 + i.data.sum,
       (if acc.2.2 = 0 then i.data.length else acc.2.2)) := by
  simp [txStep, h]

lemma txFold_after (items : List TxItem) (x : List ℕ) (hx : x ≠ [])
    (s : ℤ) (c : ℕ) (hc : c ≠ 0) :
    items.foldl txStep (x, s, c) =
      (x, s + ((items.filter (fun i => 5 ≤ i.data.sum)).map
        (fun i => i.data.sum)).sum, c) := by
  induction items generalizing s with
  | nil => simp
  | cons i t ih =>
    rw [List.foldl_cons]
    by_cases hi : i.data.sum < 5
    · rw [txStep_skip hi, ih s, List.filter_cons_of_neg (by simpa using hi)]
    · rw [txStep_keep hi, if_neg hx, if_neg hc, ih (s + i.data.sum),
        List.filter_cons_of_pos (by simpa using not_lt.mp hi)]
      simp [add_assoc]

/-- C9 counterexample: the broadcast scalar is not the quotient
`avg_sum / avg_count` itself but Python's `round` of it. For the single
retained series [7, 0, 0] (sum 7, three samples) the code broadcasts
round(7/3) = 2, not 7/3. -/
theorem c9_rounding_counterexample :
    transaction_ops_avg [⟨[0, 1, 2], [7, 0, 0]⟩] = some [2, 2, 2] ∧
      ((2 : ℚ) ≠ (7 : ℚ) / 3) := by
  constructor
  · have hpy : pyRound ((7 : ℚ) / 3) = 2 := by
      unfold pyRound
      rw [rat_floor_eq_int_floor, show ⌊(7 : ℚ) / 3⌋ = 2 from by
        rw [Int.floor_eq_iff]
        constructor <;> norm_num]
      norm_num
    unfold transaction_ops_avg
    norm_num [List.foldl_cons, List.foldl_nil, txStep, hpy]
    rfl
  · norm_num

/-- C9 amended: the running-average computation of `transaction_ops` excludes
every series whose window sum is below the noise threshold 5, and
broadcasts the single scalar `round(avg_sum / avg_count)` — the sum of
all retained values across all retained series divided by the sample
count of the first retained series — over the reference timestamp axis
(the timestamps of the first retained series). -/
theorem c9_running_average (items : List TxItem) (r : TxItem)
    (rest : List TxItem)
    (hret : items.filter (fun i => 5 ≤ i.data.sum) = r :: rest)
    (hts : r.timestamps ≠ []) :
    transaction_ops_avg items =
      some (List.replicate r.timestamps.length
        (pyRound (((((r :: rest).map (fun i => i.data.sum)).sum : ℤ) : ℚ) /
          ((r.data.length : ℕ) : ℚ)))) := by
  induction items with
  | nil => exact absurd hret (by simp)
  | cons i t ih =>
    by_cases hi : i.data.sum < 5
    · rw [List.filter_cons_of_neg (by simpa using hi)] at hret
      have hskip : transaction_ops_avg (i :: t) = transaction_ops_avg t := by
        unfold transaction_ops_avg
        rw [List.foldl_cons, txStep_skip hi]
      rw [hskip]
      exact ih hret
    · rw [List.filter_cons_of_pos (by simpa using not_lt.mp hi)] at hret
      injection hret with hir hrest
      subst hir
      have hlen : i.data.length ≠ 0 := retained_data_length_pos hi
      have hstep : txStep ([], 0, 0) i =
          (i.timestamps, i.data.sum, i.data.length) := by
        simp [txStep, hi]
      unfold transaction_ops_avg
      rw [List.foldl_cons, hstep]
      rw [txFold_after t i.timestamps hts i.data.sum i.data.length hlen]
      rw [if_neg hlen, hrest]
      simp

/-- Witness for C9: series A = [10, 10, 10] (sum 30, retained) and
B = [1, 1, 1] (sum 3, excluded); the broadcast result is [10, 10, 10]. -/
theorem c9_running_average_witness :
    transaction_ops_avg
        [⟨[0, 1, 2], [10, 10, 10]⟩, ⟨[0, 1, 2], [1, 1, 1]⟩] =
      some [10, 10, 10] := by
  rw [c9_running_average _ ⟨[0, 1, 2], [10, 10, 10]⟩ [] (by decide)
    (by decide)]
  norm_num [pyRound, Rat.floor_def']
  rfl

/-- C6 counterexample: the "Available" entry is computed from the
current total-used metric (`disk_bytes_used`), not from the sum of the
named usage entries. With quota 100 GiB, total used 70 GiB and named
usages a = 30 GiB, b = 20 GiB (all in bytes), the output is
[("b", 20), ("a", 30), ("Available", 30)]: the values sum to 80, not the
quota (100 in GiB), and "Available" is 30 rather than the claim's
max(quota - sum_of_named_usages, 0) = 50. -/
theorem c6_available_ignores_named_sum :
    disk_usage_breakdown (100 * 1024 ^ 3) (70 * 1024 ^ 3)
        [("a", some (30 * 1024 ^ 3)), ("b", some (20 * 1024 ^ 3))] =
      [("b", 20), ("a", 30), ("Available", 30)] ∧
      (20 : ℚ) + 30 + 30 ≠ bytes_to_unit (some (100 * 1024 ^ 3)) "GiB" ∧
      bytes_to_unit
          (some (max ((100 * 1024 ^ 3 : ℚ) - (30 * 1024 ^ 3 + 20 * 1024 ^ 3)) 0))
          "GiB" = 50 ∧
      (30 : ℚ) ≠ 50 := by
  refine ⟨?_, ?_, ?_, by norm_num⟩
  · norm_num [disk_usage_breakdown, keptUsages, List.filterMap_cons,
      List.insertionSort, List.orderedInsert, valLE, bytes_to_unit_gib,
      max_eq_left]
  · rw [bytes_to_unit_gib]
    norm_num
  · rw [max_eq_left (by norm_num), bytes_to_unit_gib]
    norm_num

/-- C6 amended: the snapshot breakdown includes only usage entries with
a non-null, non-negative current value, orders them ascending by value,
and appends an "Available" entry equal to
max(quota - current_total_used, 0) — computed from the separate
total-used metric, not from the sum of the named usages. Consequently
the output values (in converted units) sum to the quota exactly when the
current total used equals the sum of the considered named usages and
does not exceed the quota. -/
theorem c6_amended_breakdown (q u : ℚ) (bt : List (String × Option ℚ)) :
    List.Pairwise (fun a b : String × ℚ => a.2 ≤ b.2)
        ((disk_usage_breakdown q u bt).dropLast) ∧
      (disk_usage_breakdown q u bt).getLast? =
        some ("Available", bytes_to_unit (some (max (q - u) 0)) "GiB") ∧
      (∀ p ∈ (disk_usage_breakdown q u bt).dropLast,
        ∃ v : ℚ, (p.1, some v) ∈ bt ∧ 0 ≤ v ∧
          p.2 = bytes_to_unit (some v) "GiB") ∧
      (u = ((keptUsages bt).map Prod.snd).sum → u ≤ q →
        ((disk_usage_breakdown q u bt).map Prod.snd).sum =
          bytes_to_unit (some q) "GiB") := by
  have hout : disk_usage_breakdown q u bt =
      (List.insertionSort valLE (keptUsages bt)).map
          (fun p => (p.1, bytes_to_unit (some p.2) "GiB")) ++
        [("Available", bytes_to_unit (some (max (q - u) 0)) "GiB")] := rfl
  refine ⟨?_, ?_, ?_, ?_⟩
  · rw [hout, List.dropLast_concat]
    refine List.Pairwise.map _ ?_
      (List.sorted_insertionSort valLE (keptUsages bt))
    intro a b hab
    simp only [bytes_to_unit_gib]
    exact (div_le_div_iff_of_pos_right (by norm_num)).mpr hab
  · rw [hout, List.getLast?_concat]
  · rw [hout, List.dropLast_concat]
    intro p hp
    obtain ⟨p0, hp0, rfl⟩ := List.mem_map.mp hp
    have hk : p0 ∈ keptUsages bt :=
      ((List.perm_insertionSort valLE (keptUsages bt)).mem_iff).mp hp0
    obtain ⟨a, ha, hfa⟩ := List.mem_filterMap.mp hk
    split at hfa
    · rename_i v heq
      split at hfa
      · rename_i hv
        injection hfa with hfa2
        subst hfa2
        refine ⟨v, ?_, hv, rfl⟩
        rw [← heq, Prod.mk.eta]
        exact ha
      · exact absurd hfa (by simp)
    · exact absurd hfa (by simp)
  · intro hu huq
    have hmaps : ((List.insertionSort valLE (keptUsages bt)).map
          (fun p : String × ℚ => (p.1, bytes_to_unit (some p.2) "GiB"))).map
            Prod.snd =
        (List.insertionSort valLE (keptUsages bt)).map
          (fun p : String × ℚ => bytes_to_unit (some p.2) "GiB") := by
      rw [List.map_map]
      rfl
    have hperm : ((List.insertionSort valLE (keptUsages bt)).map
          (fun p : String × ℚ => bytes_to_unit (some p.2) "GiB")).sum =
        ((keptUsages bt).map
          (fun p : String × ℚ => bytes_to_unit (some p.2) "GiB")).sum :=
      List.Perm.sum_eq (List.Perm.map _ (List.perm_insertionSort valLE _))
    have hsum : ((keptUsages bt).map
          (fun p : String × ℚ => bytes_to_unit (some p.2) "GiB")).sum =
        (((keptUsages bt).map Prod.snd).sum) * ((1024 : ℚ) ^ 3)⁻¹ := by
      simp only [bytes_to_unit_gib, div_eq_mul_inv]
      rw [List.sum_map_mul_right]
    rw [hout, List.map_append, List.sum_append, hmaps, hperm, hsum]
    simp only [List.map_cons, List.map_nil, List.sum_cons, List.sum_nil,
      add_zero]
    rw [bytes_to_unit_gib, bytes_to_unit_gib, ← hu,
      max_eq_left (sub_nonneg.mpr huq), ← div_eq_mul_inv, div_add_div_same]
    ring_nf

/-- Witness for C6's amended theorem: quota 100 GiB, total used 50 GiB,
named usages a = 30 GiB and b = 20 GiB; the total used equals the named
sum, so the output values sum to the quota in GiB. -/
theorem c6_amended_breakdown_witness :
    ((disk_usage_breakdown (100 * 1024 ^ 3) (50 * 1024 ^ 3)
        [("a", some (30 * 1024 ^ 3)), ("b", some (20 * 1024 ^ 3))]).map
          Prod.snd).sum =
      bytes_to_unit (some (100 * 1024 ^ 3)) "GiB" :=
  (c6_amended_breakdown (100 * 1024 ^ 3) (50 * 1024 ^ 3)
      [("a", some (30 * 1024 ^ 3)), ("b", some (20 * 1024 ^ 3))]).2.2.2
    (by norm_num [keptUsages, List.filterMap_cons]) (by norm_num)

/-- C7: the bucket function is monotone non-decreasing, always lands in
{1, 2, 8, 16, 32, 64}, satisfies the spec's point values, and is the
largest bucket value that is ≤ the count (counts below 2 map to 1). -/
theorem c7_bucket_properties :
    (∀ a b : ℤ, a ≤ b → bucketOf a ≤ bucketOf b) ∧
      (∀ c : ℤ, bucketOf c ∈ ([1, 2, 8, 16, 32, 64] : List ℤ)) ∧
      bucketOf 1 = 1 ∧ bucketOf 7 = 2 ∧ bucketOf 8 = 8 ∧
      bucketOf 15 = 8 ∧ bucketOf 16 = 16 ∧ bucketOf 100 = 64 ∧
      (∀ c : ℤ, 1 ≤ c → bucketOf c ≤ c) ∧
      (∀ c : ℤ, c < 2 → bucketOf c = 1) ∧
      (∀ c b : ℤ, b ∈ ([1, 2, 8, 16, 32, 64] : List ℤ) → b ≤ c →
        b ≤ bucketOf c) := by
  refine ⟨fun a b h => ?_, fun c => ?_, by decide, by decide, by decide,
    by decide, by decide, by decide, fun c h => ?_, fun c h => ?_,
    fun c b hb hbc => ?_⟩
  · unfold bucketOf
    split_ifs <;> omega
  · unfold bucketOf
    simp only [List.mem_cons, List.not_mem_nil, or_false]
    split_ifs <;> omega
  · unfold bucketOf
    split_ifs <;> omega
  · unfold bucketOf
    split_ifs <;> omega
  · simp only [List.mem_cons, List.not_mem_nil, or_false] at hb
    unfold bucketOf
    rcases hb with rfl | rfl | rfl | rfl | rfl | rfl <;> split_ifs <;> omega

/-- Witness for C7: its universally quantified conjuncts applied at
concrete points, discharging each hypothesis there. -/
theorem c7_bucket_properties_witness :
    bucketOf 3 ≤ bucketOf 12 ∧ bucketOf 12 ≤ 12 ∧ bucketOf 0 = 1 ∧
      8 ≤ bucketOf 12 :=
  ⟨c7_bucket_properties.1 3 12 (by decide),
   c7_bucket_properties.2.2.2.2.2.2.2.2.1 12 (by decide),
   c7_bucket_properties.2.2.2.2.2.2.2.2.2.1 0 (by decide),
   c7_bucket_properties.2.2.2.2.2.2.2.2.2.2 12 8 (by decide) (by decide)⟩

end PgHotspots
